import Mathlib

/-!
# Verification of the Cyclonext device-state synchronization client

Shallow embedding of `src/iaqualink/systems/cyclonext/system.py` and
`src/iaqualink/systems/cyclonext/device.py`: the shadow-document parsing and
reconciliation algorithm (`CyclonextSystem._parse_shadow_response`,
`CyclonextDevice.from_data`) and the rate-limited refresh protocol with a
single transparent re-authentication retry (`CyclonextSystem.update`,
`CyclonextSystem.send_devices_request`).

JSON documents are modelled by the inductive `JVal` (with mutual list types
`JList`/`JFields` so that decidable equality is derivable); Python dicts are
modelled by association lists whose assignment `alistUpsert` replaces the
value in place when the key exists (keeping its position) and appends
otherwise, matching Python dict insertion-order semantics.  Network and
authentication collaborators (external per the spec) are modelled by an
oracle of fetch outcomes and a pair of bearer tokens.
-/

set_option autoImplicit false

namespace Cyclonext

mutual
/-- A JSON-like value, the shape of a decoded shadow document. -/
inductive JVal where
  | null
  | bool (b : Bool)
  | num (n : Int)
  | str (s : String)
  | arr (elems : JList)
  | obj (fields : JFields)
/-- A JSON array's elements. -/
inductive JList where
  | nil
  | cons (head : JVal) (tail : JList)
/-- A JSON object's fields, in insertion order (Python dict order). -/
inductive JFields where
  | nil
  | cons (key : String) (val : JVal) (tail : JFields)
end

deriving instance DecidableEq for JVal
deriving instance DecidableEq for Except

/-- View a `JFields` as a list of key/value pairs. -/
def JFields.toList : JFields → List (String × JVal)
  | .nil => []
  | .cons k v t => (k, v) :: t.toList

/-- View a `JList` as a list of values. -/
def JList.toList : JList → List JVal
  | .nil => []
  | .cons h t => h :: t.toList

/-- Build a `JFields` from a list of key/value pairs. -/
def JFields.ofList : List (String × JVal) → JFields
  | [] => .nil
  | (k, v) :: t => .cons k v (JFields.ofList t)

/-- Build a `JList` from a list of values. -/
def JList.ofList : List JVal → JList
  | [] => .nil
  | h :: t => .cons h (JList.ofList t)

/-- A JSON object literal. -/
def jobj (l : List (String × JVal)) : JVal := .obj (JFields.ofList l)

/-- A JSON array literal. -/
def jarr (l : List JVal) : JVal := .arr (JList.ofList l)

/-- A Python dict with string keys and JSON values, in insertion order. -/
abbrev Bag := List (String × JVal)

/-- First-occurrence lookup in an association list (Python `d[k]` / `k in d`). -/
def alistLookup {β : Type} (k : String) : List (String × β) → Option β
  | [] => none
  | (k', v) :: t => if k' = k then some v else alistLookup k t

/-- Python dict assignment `d[k] = v`: replace the value in place when the key
exists (keeping its position), append otherwise. -/
def alistUpsert {β : Type} (k : String) (v : β) : List (String × β) → List (String × β)
  | [] => [(k, v)]
  | (k', v') :: t => if k' = k then (k', v) :: t else (k', v') :: alistUpsert k v t

/-- Replace the value stored at key `k` by `f` of it, in place; no-op when the
key is absent (Python `d[k].data[...] = ...` mutating the stored object). -/
def alistAdjust {β : Type} (k : String) (f : β → β) : List (String × β) → List (String × β)
  | [] => []
  | (k', v) :: t => if k' = k then (k', f v) :: t else (k', v) :: alistAdjust k f t

/-! ## Errors and exception classification

The exception classes live in `iaqualink/exception.py`, which is not under
`src/`; only their use sites are.  `AqErr` models the classifications the
spec names, plus the builtin decode/lookup failures parsing can raise. -/

/-- Failure classifications crossing the embedded functions. -/
inductive AqErr where
  | unauthorized
  | serviceError
  | systemOffline
  | decodeError
  | pathError
  | itemsError
  deriving DecidableEq

/-- Modelled from the spec: the exception hierarchy of `iaqualink/exception.py`
is not under `src/`.  Per the spec's error taxonomy, the "unauthorized"
classification is a service-error classification when it escapes the single
retry ("a second occurrence is reclassified as a propagated service error");
decode and document-shape failures are builtin exceptions, not service
errors. -/
def isServiceException : AqErr → Bool
  | .unauthorized => true
  | .serviceError => true
  | _ => false

/-! ## Device model (`device.py`) -/

/-- The concrete class chosen by `CyclonextDevice.from_data`. -/
inductive DeviceClass where
  | prog
  | attributeSensor
  deriving DecidableEq

/-- A device: its concrete class and its attribute bag `data`. -/
structure CyclonextDevice where
  cls : DeviceClass
  data : Bag
  deriving DecidableEq

/-- Names that select the `CyclonextProg` class in `from_data`. -/
def progNames : List String := ["production", "boost", "low"]

/-- `CyclonextDevice.from_data`: pick the class from `data["name"]` and wrap
the bag (`device.py` lines 58-69). -/
def CyclonextDevice.from_data (data : Bag) : CyclonextDevice :=
  match alistLookup "name" data with
  | some (.str n) => if n ∈ progNames then ⟨.prog, data⟩ else ⟨.attributeSensor, data⟩
  | _ => ⟨.attributeSensor, data⟩

/-- The device registry `self.devices`: a dict from name to device. -/
abbrev Registry := List (String × CyclonextDevice)

/-! ## Shadow-document flattening (`_parse_shadow_response`, first loop) -/

/-- Recognized top-level attribute names. -/
def topNames : List String := ["mode", "cycle", "cycleStartTime"]

/-- Recognized sub-attribute names inside `durations`. -/
def durNames : List String := ["quickTim", "deepTim", "stepper"]

/-- The attrs dict built for a flattened entry:
`attrs = {"name": name}; attrs.update({"state": state})`. -/
def mkAttrs (name : String) (state : JVal) : Bag :=
  [("name", .str name), ("state", state)]

/-- The transient flattened `devices` map: flattened name to attrs bag. -/
abbrev FlatMap := List (String × Bag)

/-- Inner loop over `state.items()` when the key is `durations`. -/
def flattenDurations (acc : FlatMap) : List (String × JVal) → FlatMap
  | [] => acc
  | (durName, durState) :: t =>
      flattenDurations
        (if durName ∈ durNames then alistUpsert durName (mkAttrs durName durState) acc else acc) t

/-- Loop over one robot entry's `value.items()`: record entries for recognized
top-level names, and for recognized names inside a `durations` mapping; a
non-mapping `durations` value raises (`.items()` on a non-dict). -/
def flattenFields (acc : FlatMap) : List (String × JVal) → Except AqErr FlatMap
  | [] => .ok acc
  | (name, state) :: t =>
      let acc1 := if name ∈ topNames then alistUpsert name (mkAttrs name state) acc else acc
      if name = "durations" then
        match state with
        | .obj ds => flattenFields (flattenDurations acc1 ds.toList) t
        | _ => .error .itemsError
      else flattenFields acc1 t

/-- Loop over the robot sequence: `None` entries are skipped, mapping entries
are flattened, anything else raises (`.items()` on a non-dict). -/
def flattenRobot (acc : FlatMap) : List JVal → Except AqErr FlatMap
  | [] => .ok acc
  | .null :: t => flattenRobot acc t
  | .obj fields :: t =>
      match flattenFields acc fields.toList with
      | .ok acc1 => flattenRobot acc1 t
      | .error e => .error e
  | _ :: _ => .error .itemsError

/-! ## Registry merge (`_parse_shadow_response`, second loop) -/

/-- `for dk, dv in v.items(): self.devices[k].data[dk] = dv` on one device. -/
def updateDeviceData (attrs : Bag) (d : CyclonextDevice) : CyclonextDevice :=
  { d with data := attrs.foldl (fun b p => alistUpsert p.1 p.2 b) d.data }

/-- One iteration of the merge loop: update the existing device's bag in
place, or insert a freshly constructed device. -/
def mergeEntry (reg : Registry) (k : String) (attrs : Bag) : Registry :=
  if (alistLookup k reg).isSome then alistAdjust k (updateDeviceData attrs) reg
  else reg ++ [(k, CyclonextDevice.from_data attrs)]

/-- The merge loop `for k, v in devices.items()`. -/
def mergeDevices (reg : Registry) (flat : FlatMap) : Registry :=
  flat.foldl (fun r p => mergeEntry r p.1 p.2) reg

/-! ## `_parse_shadow_response` -/

/-- Python subscripting `v[key]` on a decoded JSON value: `KeyError` on a
missing key, `TypeError` on a non-mapping. -/
def jsonGet (v : JVal) (key : String) : Except AqErr JVal :=
  match v with
  | .obj fields =>
      match alistLookup key fields.toList with
      | some x => .ok x
      | none => .error .pathError
  | _ => .error .pathError

/-- The decode step `response.json()` (`none` models an undecodable body)
followed by the navigation `data["state"]["reported"]["equipment"]["robot"]`;
the robot value must be a sequence, as the source iterates it with
`enumerate(root)`. -/
def getRobotEntries (body : Option JVal) : Except AqErr (List JVal) :=
  match body with
  | none => .error .decodeError
  | some data =>
    match jsonGet data "state" with
    | .error e => .error e
    | .ok v1 =>
      match jsonGet v1 "reported" with
      | .error e => .error e
      | .ok v2 =>
        match jsonGet v2 "equipment" with
        | .error e => .error e
        | .ok v3 =>
          match jsonGet v3 "robot" with
          | .error e => .error e
          | .ok robot =>
            match robot with
            | .arr entries => .ok entries.toList
            | _ => .error .pathError

/-- `CyclonextSystem._parse_shadow_response` (`system.py` lines 89-125):
decode the body, navigate to `state.reported.equipment.robot`, flatten into
the transient `devices` map, then merge into the registry.  Pure: returns
the new registry instead of mutating `self.devices`; any failure leaves the
registry argument untouched because flattening completes before the merge
loop starts, exactly as in the source. -/
def parse_shadow_response (body : Option JVal) (reg : Registry) :
    Except AqErr Registry :=
  match getRobotEntries body with
  | .error e => .error e
  | .ok entries =>
    match flattenRobot [] entries with
    | .error e => .error e
    | .ok flat => .ok (mergeDevices reg flat)

/-! ## Spec-side definitions for refinement statements

These follow the specification's words (the flattening description of
`ShadowReconciler.parse` step 4 and its determinism note) rather than the
source, to be compared against the source-derived flattening. -/

/-- Whether a JSON value is a mapping. -/
def isObj : JVal → Bool
  | .obj _ => true
  | _ => false

/-- The fields of a robot entry the spec's flattening description covers:
any `durations` value present must itself be a mapping. -/
def fieldsOk (fs : List (String × JVal)) : Bool :=
  fs.all fun p => !(p.1 == "durations") || isObj p.2

/-- A robot entry the spec's flattening description covers: null, or a
mapping whose `durations` value (if any) is itself a mapping. -/
def entryOk : JVal → Bool
  | .null => true
  | .obj fields => fieldsOk fields.toList
  | _ => false

/-- Spec: the recognized sub-entries of a `durations` mapping. -/
def durRecognized : JVal → List (String × JVal)
  | .obj ds => ds.toList.filter fun q => decide (q.1 ∈ durNames)
  | _ => []

/-- Spec: the recognized (name, state) occurrences contributed by one robot
entry, in document order; every other key is dropped. -/
def specEntryPairs : List (String × JVal) → List (String × JVal)
  | [] => []
  | (name, state) :: t =>
      (if name ∈ topNames then [(name, state)] else []) ++
        (if name = "durations" then durRecognized state else []) ++ specEntryPairs t

/-- Spec: the recognized (name, state) occurrences of a whole robot
sequence in document order; null entries contribute nothing. -/
def specRecognizedPairs : List JVal → List (String × JVal)
  | [] => []
  | .obj fields :: t => specEntryPairs fields.toList ++ specRecognizedPairs t
  | _ :: t => specRecognizedPairs t

/-- Collect (name, state) occurrences into a flattened map, a later
occurrence of a name overwriting an earlier one. -/
def buildFlat (acc : FlatMap) (pairs : List (String × JVal)) : FlatMap :=
  pairs.foldl (fun m p => alistUpsert p.1 (mkAttrs p.1 p.2) m) acc

/-- The state at the last occurrence of name `n` in a list of occurrences. -/
def findLastVal (n : String) : List (String × JVal) → Option JVal
  | [] => none
  | p :: t =>
      match findLastVal n t with
      | some v => some v
      | none => if p.1 = n then some p.2 else none

/-! ## Refresh protocol (`send_devices_request`, `update`) -/

/-- The authentication collaborator's observable tokens: `idToken` is
`self.aqualink.id_token` before `login()`, `freshToken` after. -/
structure Auth where
  idToken : String
  freshToken : String

/-- Outcome of one `send_request` call on the transport collaborator.  A
successful response carries its decoded JSON body (`none` when the body
does not decode). -/
inductive FetchOutcome where
  | ok (body : Option JVal)
  | unauthorized
  | serviceError

/-- Observable effects of one `send_devices_request` call: how many transport
requests went out, how many `login()` calls were made, and the
`Authorization` header used on each request in order. -/
structure SendStats where
  sends : Nat
  logins : Nat
  headersUsed : List String
  deriving DecidableEq

/-- `CyclonextSystem.send_devices_request` (`system.py` lines 42-54): send
with the current token; on an unauthorized failure, `login()` once, rebuild
the header from the fresh token and retry exactly once, letting any failure
of the retry propagate.  The transport is an oracle giving the outcome of
the i-th request of this call. -/
def send_devices_request (a : Auth) (oracle : Nat → FetchOutcome) :
    Except AqErr (Option JVal) × SendStats :=
  match oracle 0 with
  | .ok body => (.ok body, ⟨1, 0, [a.idToken]⟩)
  | .serviceError => (.error .serviceError, ⟨1, 0, [a.idToken]⟩)
  | .unauthorized =>
      match oracle 1 with
      | .ok body => (.ok body, ⟨2, 1, [a.idToken, a.freshToken]⟩)
      | .serviceError => (.error .serviceError, ⟨2, 1, [a.idToken, a.freshToken]⟩)
      | .unauthorized => (.error .unauthorized, ⟨2, 1, [a.idToken, a.freshToken]⟩)

/-- `send_reported_state_request`: plain GET via `send_devices_request`. -/
def send_reported_state_request (a : Auth) (oracle : Nat → FetchOutcome) :
    Except AqErr (Option JVal) × SendStats :=
  send_devices_request a oracle

/-- `send_desired_state_request`: POST of `{"state": {"desired": state}}` via
`send_devices_request`; same retry policy, desired payload opaque here. -/
def send_desired_state_request (a : Auth) (oracle : Nat → FetchOutcome) :
    Except AqErr (Option JVal) × SendStats :=
  send_devices_request a oracle

/-- Modelled from the spec: `iaqualink.const.MIN_SECS_TO_REFRESH` lives
outside `src/`; the spec fixes only that it is a constant number of seconds
("fixed, e.g. tens of seconds"). -/
def MIN_SECS_TO_REFRESH : Int := 30

/-- The per-system state `update` touches: `self.last_refresh`,
`self.online` (`none` models Python `None`, i.e. unknown), `self.devices`. -/
structure SysState where
  lastRefresh : Int
  online : Option Bool
  devices : Registry
  deriving DecidableEq

/-- The stats of a refresh that made no network request. -/
def noSends : SendStats := ⟨0, 0, []⟩

/-- `update`'s handling of the parse step (`system.py` lines 80-87): catch
only the system-offline signal (setting `online := false` and re-raising),
let any other parse failure propagate untouched, and on success mark the
system online, store the new registry and stamp the refresh time. -/
def handleParseResult (now2 : Int) (s : SysState) (res : Except AqErr Registry) :
    Except AqErr Unit × SysState :=
  match res with
  | .error e =>
      if e = .systemOffline then (.error e, { s with online := some false })
      else (.error e, s)
  | .ok devs => (.ok (), { s with online := some true, devices := devs, lastRefresh := now2 })

/-- `CyclonextSystem.update` (`system.py` lines 66-87): throttle on elapsed
time, fetch (with the single auth retry inside `send_devices_request`),
classify a fetch failure as a service exception (setting `online := none`
and re-raising), then parse and commit.  `now` is `int(time.time())` at
entry, `now2` the second reading stored on success. -/
def update (now now2 : Int) (a : Auth) (oracle : Nat → FetchOutcome) (s : SysState) :
    Except AqErr Unit × SysState × SendStats :=
  if now - s.lastRefresh < MIN_SECS_TO_REFRESH then (.ok (), s, noSends)
  else
    match send_devices_request a oracle with
    | (.error e, st) =>
        if isServiceException e then (.error e, { s with online := none }, st)
        else (.error e, s, st)
    | (.ok body, st) =>
        let rs := handleParseResult now2 s (parse_shadow_response body s.devices)
        (rs.1, rs.2, st)

/-! ## Concrete documents, oracles and registries used in witnesses -/

/-- The spec's worked example robot entry. -/
def exampleRobotEntry : JVal :=
  jobj [("mode", .str "filter"), ("cycle", .str "A"), ("cycleStartTime", .num 123),
    ("durations", jobj [("quickTim", .num 5), ("deepTim", .num 10), ("stepper", .num 2),
      ("ignored", .num 99)])]

/-- A shadow document around a given robot sequence. -/
def shadowDoc (robot : List JVal) : JVal :=
  jobj [("state", jobj [("reported", jobj [("equipment", jobj [("robot", jarr robot)])])])]

/-- The spec's worked example shadow document. -/
def exampleDoc : JVal := shadowDoc [exampleRobotEntry]

/-- The flattened `devices` map produced from the worked example. -/
def exampleFlat : FlatMap :=
  [("mode", mkAttrs "mode" (.str "filter")),
   ("cycle", mkAttrs "cycle" (.str "A")),
   ("cycleStartTime", mkAttrs "cycleStartTime" (.num 123)),
   ("quickTim", mkAttrs "quickTim" (.num 5)),
   ("deepTim", mkAttrs "deepTim" (.num 10)),
   ("stepper", mkAttrs "stepper" (.num 2))]

/-- The registry produced by parsing the worked example into an empty
registry. -/
def exampleRegistry : Registry :=
  [("mode", ⟨.attributeSensor, mkAttrs "mode" (.str "filter")⟩),
   ("cycle", ⟨.attributeSensor, mkAttrs "cycle" (.str "A")⟩),
   ("cycleStartTime", ⟨.attributeSensor, mkAttrs "cycleStartTime" (.num 123)⟩),
   ("quickTim", ⟨.attributeSensor, mkAttrs "quickTim" (.num 5)⟩),
   ("deepTim", ⟨.attributeSensor, mkAttrs "deepTim" (.num 10)⟩),
   ("stepper", ⟨.attributeSensor, mkAttrs "stepper" (.num 2)⟩)]

/-- A pre-existing `mode` device carrying an extra attribute in its bag. -/
def modeDev : CyclonextDevice :=
  ⟨.attributeSensor, [("name", .str "mode"), ("state", .str "filter"), ("extra", .num 7)]⟩

/-- A registry holding only the `mode` device. -/
def regMode : Registry := [("mode", modeDev)]

/-- A registry holding the `mode` device and a `cycle` device. -/
def regTwo : Registry := [("mode", modeDev), ("cycle", ⟨.attributeSensor, mkAttrs "cycle" (.str "A")⟩)]

/-- Parsing the worked example over `regMode`: the existing device keeps its
identity and extra attribute; the five other names are created fresh. -/
def regModeParsed : Registry :=
  [("mode", ⟨.attributeSensor, [("name", .str "mode"), ("state", .str "filter"), ("extra", .num 7)]⟩),
   ("cycle", ⟨.attributeSensor, mkAttrs "cycle" (.str "A")⟩),
   ("cycleStartTime", ⟨.attributeSensor, mkAttrs "cycleStartTime" (.num 123)⟩),
   ("quickTim", ⟨.attributeSensor, mkAttrs "quickTim" (.num 5)⟩),
   ("deepTim", ⟨.attributeSensor, mkAttrs "deepTim" (.num 10)⟩),
   ("stepper", ⟨.attributeSensor, mkAttrs "stepper" (.num 2)⟩)]

/-- A transport oracle: unauthorized on the first request, then success. -/
def retryOracle : Nat → FetchOutcome :=
  fun n => if n = 0 then .unauthorized else .ok (some exampleDoc)

/-- Two robot entries both carrying `mode`, in one order and the other. -/
def dupEntries : List JVal := [jobj [("mode", .str "A")], jobj [("mode", .str "B")]]

/-- Shadow document whose robot entries set `mode` to "A" then "B". -/
def docModeAB : JVal := shadowDoc dupEntries

/-- The same document with the robot sequence reversed. -/
def docModeBA : JVal := shadowDoc [jobj [("mode", .str "B")], jobj [("mode", .str "A")]]

/-! ## Association-list lemmas -/

theorem alistLookup_upsert_self {β : Type} (k : String) (v : β) (l : List (String × β)) :
    alistLookup k (alistUpsert k v l) = some v := by
  induction l with
  | nil => simp [alistUpsert, alistLookup]
  | cons p t ih =>
    obtain ⟨k', v'⟩ := p
    by_cases h : k' = k <;> simp [alistUpsert, alistLookup, h, ih]

theorem alistLookup_upsert_ne {β : Type} (k k' : String) (v : β) (l : List (String × β))
    (h : k' ≠ k) : alistLookup k' (alistUpsert k v l) = alistLookup k' l := by
  induction l with
  | nil => simp [alistUpsert, alistLookup, Ne.symm h]
  | cons p t ih =>
    obtain ⟨k'', v'⟩ := p
    by_cases h2 : k'' = k
    · subst h2
      simp [alistUpsert, alistLookup, Ne.symm h, h]
    · simp [alistUpsert, alistLookup, h2, ih]

theorem alistUpsert_of_lookup_eq {β : Type} (k : String) (v : β) (l : List (String × β))
    (h : alistLookup k l = some v) : alistUpsert k v l = l := by
  induction l with
  | nil => simp [alistLookup] at h
  | cons p t ih =>
    obtain ⟨k', v'⟩ := p
    by_cases h2 : k' = k
    · subst h2
      simp [alistLookup] at h
      simp [alistUpsert, h]
    · simp only [alistLookup, if_neg h2] at h
      simp [alistUpsert, h2, ih h]

theorem alistUpsert_keys_of_isSome {β : Type} (k : String) (v : β) (l : List (String × β))
    (h : (alistLookup k l).isSome) :
    (alistUpsert k v l).map Prod.fst = l.map Prod.fst := by
  induction l with
  | nil => simp [alistLookup] at h
  | cons p t ih =>
    obtain ⟨k', v'⟩ := p
    by_cases h2 : k' = k
    · simp [alistUpsert, h2]
    · simp only [alistLookup, h2, if_neg h2] at h
      simp [alistUpsert, h2, ih h]

theorem alistAdjust_keys {β : Type} (k : String) (f : β → β) (l : List (String × β)) :
    (alistAdjust k f l).map Prod.fst = l.map Prod.fst := by
  induction l with
  | nil => rfl
  | cons p t ih =>
    obtain ⟨k', v⟩ := p
    by_cases h : k' = k <;> simp [alistAdjust, h, ih]

theorem alistLookup_adjust_self {β : Type} (k : String) (f : β → β) (l : List (String × β))
    (v : β) (h : alistLookup k l = some v) :
    alistLookup k (alistAdjust k f l) = some (f v) := by
  induction l with
  | nil => simp [alistLookup] at h
  | cons p t ih =>
    obtain ⟨k', v'⟩ := p
    by_cases h2 : k' = k
    · subst h2
      simp [alistLookup] at h
      simp [alistAdjust, alistLookup, h]
    · simp only [alistLookup, if_neg h2] at h
      simp [alistAdjust, alistLookup, h2, ih h]

theorem alistLookup_adjust_ne {β : Type} (k k' : String) (f : β → β) (l : List (String × β))
    (h : k' ≠ k) : alistLookup k' (alistAdjust k f l) = alistLookup k' l := by
  induction l with
  | nil => rfl
  | cons p t ih =>
    obtain ⟨k'', v⟩ := p
    by_cases h2 : k'' = k
    · subst h2
      simp [alistAdjust, alistLookup, Ne.symm h, h]
    · simp [alistAdjust, alistLookup, h2, ih]

theorem alistLookup_append {β : Type} (k : String) (l1 l2 : List (String × β)) :
    alistLookup k (l1 ++ l2) =
      match alistLookup k l1 with
      | some v => some v
      | none => alistLookup k l2 := by
  induction l1 with
  | nil => simp [alistLookup]
  | cons p t ih =>
    obtain ⟨k', v⟩ := p
    by_cases h : k' = k <;> simp [alistLookup, h, ih]

/-! ## Flattening refinement lemmas -/

theorem buildFlat_append (acc : FlatMap) (l1 l2 : List (String × JVal)) :
    buildFlat acc (l1 ++ l2) = buildFlat (buildFlat acc l1) l2 := by
  simp [buildFlat, List.foldl_append]

theorem buildFlat_cons (acc : FlatMap) (p : String × JVal) (t : List (String × JVal)) :
    buildFlat acc (p :: t) = buildFlat (alistUpsert p.1 (mkAttrs p.1 p.2) acc) t := rfl

theorem flattenDurations_eq (ds : List (String × JVal)) (acc : FlatMap) :
    flattenDurations acc ds = buildFlat acc (ds.filter fun q => decide (q.1 ∈ durNames)) := by
  induction ds generalizing acc with
  | nil => rfl
  | cons p t ih =>
    obtain ⟨dn, dv⟩ := p
    by_cases h : dn ∈ durNames <;>
      simp [flattenDurations, h, ih, List.filter_cons, buildFlat_cons]

theorem flattenFields_eq (fs : List (String × JVal)) (acc : FlatMap)
    (h : fieldsOk fs = true) :
    flattenFields acc fs = .ok (buildFlat acc (specEntryPairs fs)) := by
  induction fs generalizing acc with
  | nil => rfl
  | cons p t ih =>
    obtain ⟨name, state⟩ := p
    simp only [fieldsOk, List.all_cons, Bool.and_eq_true] at h
    obtain ⟨hhead, htail⟩ := h
    by_cases hdur : name = "durations"
    · subst hdur
      have hobj : isObj state = true := by
        simpa using hhead
      cases state with
      | obj ds =>
        have htop : ¬ ("durations" ∈ topNames) := by decide
        simp [flattenFields, specEntryPairs, durRecognized, htop,
          flattenDurations_eq, buildFlat_append, ih _ htail]
      | null => simp [isObj] at hobj
      | bool b => simp [isObj] at hobj
      | num n => simp [isObj] at hobj
      | str s => simp [isObj] at hobj
      | arr xs => simp [isObj] at hobj
    · by_cases htop : name ∈ topNames <;>
        simp [flattenFields, specEntryPairs, hdur, htop, buildFlat_append,
          buildFlat_cons, ih _ htail]

theorem flattenRobot_eq (entries : List JVal) (acc : FlatMap)
    (h : entries.all entryOk = true) :
    flattenRobot acc entries = .ok (buildFlat acc (specRecognizedPairs entries)) := by
  induction entries generalizing acc with
  | nil => rfl
  | cons e t ih =>
    simp only [List.all_cons, Bool.and_eq_true] at h
    obtain ⟨hhead, htail⟩ := h
    cases e with
    | null => simp [flattenRobot, specRecognizedPairs, ih _ htail]
    | obj fields =>
      simp [flattenRobot, specRecognizedPairs, flattenFields_eq _ _ hhead,
        buildFlat_append, ih _ htail]
    | bool b => simp [entryOk] at hhead
    | num n => simp [entryOk] at hhead
    | str s => simp [entryOk] at hhead
    | arr xs => simp [entryOk] at hhead

theorem alistLookup_buildFlat (n : String) (pairs : List (String × JVal)) (acc : FlatMap) :
    alistLookup n (buildFlat acc pairs) =
      match findLastVal n pairs with
      | some v => some (mkAttrs n v)
      | none => alistLookup n acc := by
  induction pairs generalizing acc with
  | nil => rfl
  | cons p t ih =>
    rw [buildFlat_cons, ih]
    cases hf : findLastVal n t with
    | some v => simp [findLastVal, hf]
    | none =>
      by_cases h : p.1 = n
      · subst h
        simp [findLastVal, hf, alistLookup_upsert_self]
      · simp [findLastVal, hf, h, alistLookup_upsert_ne _ _ _ _ (Ne.symm h)]

/-! ## Merge and parse lemmas -/

theorem updateDeviceData_cls (attrs : Bag) (d : CyclonextDevice) :
    (updateDeviceData attrs d).cls = d.cls := rfl

theorem updateDeviceData_mkAttrs (k : String) (st : JVal) (d : CyclonextDevice)
    (hname : alistLookup "name" d.data = some (.str k)) :
    updateDeviceData (mkAttrs k st) d = ⟨d.cls, alistUpsert "state" st d.data⟩ := by
  show ⟨d.cls, alistUpsert "state" st (alistUpsert "name" (.str k) d.data)⟩ =
    (⟨d.cls, alistUpsert "state" st d.data⟩ : CyclonextDevice)
  rw [alistUpsert_of_lookup_eq _ _ _ hname]

theorem mergeDevices_cons (reg : Registry) (p : String × Bag) (t : FlatMap) :
    mergeDevices reg (p :: t) = mergeDevices (mergeEntry reg p.1 p.2) t := rfl

theorem mergeEntry_isSome (reg : Registry) (k' : String) (v : Bag) (k : String)
    (h : (alistLookup k reg).isSome) :
    (alistLookup k (mergeEntry reg k' v)).isSome := by
  obtain ⟨d, hd⟩ := Option.isSome_iff_exists.mp h
  unfold mergeEntry
  split
  · by_cases hk : k = k'
    · subst hk
      simp [alistLookup_adjust_self _ _ _ _ hd]
    · rw [alistLookup_adjust_ne _ _ _ _ hk]
      exact h
  · rw [alistLookup_append]
    simp [hd]

theorem mergeDevices_isSome (flat : FlatMap) (reg : Registry) (k : String)
    (h : (alistLookup k reg).isSome) :
    (alistLookup k (mergeDevices reg flat)).isSome := by
  induction flat generalizing reg with
  | nil => exact h
  | cons p t ih =>
    rw [mergeDevices_cons]
    exact ih _ (mergeEntry_isSome _ _ _ _ h)

theorem mergeEntry_cls (reg : Registry) (k' : String) (v : Bag) (k : String)
    (d : CyclonextDevice) (h : alistLookup k reg = some d) :
    ∃ d', alistLookup k (mergeEntry reg k' v) = some d' ∧ d'.cls = d.cls := by
  unfold mergeEntry
  split
  · by_cases hk : k = k'
    · subst hk
      exact ⟨updateDeviceData v d, alistLookup_adjust_self _ _ _ _ h, rfl⟩
    · exact ⟨d, by rw [alistLookup_adjust_ne _ _ _ _ hk]; exact h, rfl⟩
  · exact ⟨d, by rw [alistLookup_append]; simp [h], rfl⟩

theorem mergeDevices_cls (flat : FlatMap) (reg : Registry) (k : String)
    (d : CyclonextDevice) (h : alistLookup k reg = some d) :
    ∃ d', alistLookup k (mergeDevices reg flat) = some d' ∧ d'.cls = d.cls := by
  induction flat generalizing reg d with
  | nil => exact ⟨d, h, rfl⟩
  | cons p t ih =>
    obtain ⟨d1, hd1, hcls1⟩ := mergeEntry_cls reg p.1 p.2 k d h
    obtain ⟨d2, hd2, hcls2⟩ := ih _ _ hd1
    exact ⟨d2, by rw [mergeDevices_cons]; exact hd2, hcls2.trans hcls1⟩

theorem parse_ok_elim (body : Option JVal) (reg reg' : Registry)
    (h : parse_shadow_response body reg = .ok reg') :
    ∃ entries flat, getRobotEntries body = .ok entries ∧
      flattenRobot [] entries = .ok flat ∧ reg' = mergeDevices reg flat := by
  unfold parse_shadow_response at h
  split at h
  · simp at h
  next entries hg =>
    split at h
    · simp at h
    next flat hf =>
      simp only [Except.ok.injEq] at h
      exact ⟨entries, flat, hg, hf, h.symm⟩

/-! ## Claims -/

/-- C1: for every shadow robot sequence whose entries are each null or a
mapping (any `durations` value itself a mapping), the flattening step of
parse succeeds and produces exactly the recognized entries — those named
`mode`, `cycle`, `cycleStartTime` taken from top level, and `quickTim`,
`deepTim`, `stepper` taken from inside `durations` — each with state equal
to the corresponding document value; null entries contribute nothing and
every other key is silently ignored.  Stated as a refinement: the
source-derived flattening equals the map built from the spec-side list of
recognized (name, state) occurrences. -/
theorem claim1_flatten_recognized (entries : List JVal)
    (h : entries.all entryOk = true) :
    flattenRobot [] entries = .ok (buildFlat [] (specRecognizedPairs entries)) :=
  flattenRobot_eq entries [] h

/-- C1 witness: the spec's worked example document flattens to exactly the
six recognized entries with matching states, and no `ignored` entry. -/
theorem claim1_witness :
    ([exampleRobotEntry].all entryOk = true) ∧
    flattenRobot [] [exampleRobotEntry] = .ok exampleFlat ∧
    alistLookup "ignored" exampleFlat = none :=
  ⟨by decide, (claim1_flatten_recognized [exampleRobotEntry] (by decide)).trans (by decide),
    by decide⟩

/-- C2: when the first fetch attempt is unauthorized and the retried request
succeeds with a body that parses, `send_devices_request` performs exactly
one re-authentication and exactly two requests, rebuilding the
`Authorization` header from the fresh token for the retry, and the refresh
completes successfully with online set to true. -/
theorem claim2_auth_retry (now now2 : Int) (a : Auth) (oracle : Nat → FetchOutcome)
    (s : SysState) (body : Option JVal) (devs : Registry)
    (hthr : ¬ now - s.lastRefresh < MIN_SECS_TO_REFRESH)
    (h0 : oracle 0 = .unauthorized) (h1 : oracle 1 = .ok body)
    (hp : parse_shadow_response body s.devices = .ok devs) :
    send_devices_request a oracle = (.ok body, ⟨2, 1, [a.idToken, a.freshToken]⟩) ∧
    update now now2 a oracle s =
      (.ok (), { s with online := some true, devices := devs, lastRefresh := now2 },
        ⟨2, 1, [a.idToken, a.freshToken]⟩) := by
  have hs : send_devices_request a oracle = (.ok body, ⟨2, 1, [a.idToken, a.freshToken]⟩) := by
    simp [send_devices_request, h0, h1]
  exact ⟨hs, by simp [update, hthr, hs, handleParseResult, hp]⟩

/-- C2 witness: a concrete unauthorized-then-success exchange makes exactly
two requests with rebuilt header and one login, and the refresh succeeds
with online true. -/
theorem claim2_witness :
    send_devices_request ⟨"t0", "t1"⟩ retryOracle =
      (.ok (some exampleDoc), ⟨2, 1, ["t0", "t1"]⟩) ∧
    update 100 101 ⟨"t0", "t1"⟩ retryOracle ⟨0, none, []⟩ =
      (.ok (), ⟨101, some true, exampleRegistry⟩, ⟨2, 1, ["t0", "t1"]⟩) :=
  claim2_auth_retry 100 101 ⟨"t0", "t1"⟩ retryOracle ⟨0, none, []⟩ (some exampleDoc)
    exampleRegistry (by decide) rfl rfl (by decide)

/-- C3: a refresh call issued while the elapsed time since the last
successful refresh is strictly below the minimum interval returns
immediately: no request is sent, no login happens, and the state — online
status, last-refresh timestamp and the device registry — is unchanged. -/
theorem claim3_throttle (now now2 : Int) (a : Auth) (oracle : Nat → FetchOutcome)
    (s : SysState) (h : now - s.lastRefresh < MIN_SECS_TO_REFRESH) :
    update now now2 a oracle s = (.ok (), s, noSends) := by
  simp [update, h]

/-- C3 witness: a refresh 10 seconds after a refresh stamped at 0 is a
no-op even though the transport would fail. -/
theorem claim3_witness :
    update 10 11 ⟨"t0", "t1"⟩ (fun _ => .serviceError) ⟨0, none, []⟩ =
      (.ok (), ⟨0, none, []⟩, noSends) :=
  claim3_throttle 10 11 ⟨"t0", "t1"⟩ (fun _ => .serviceError) ⟨0, none, []⟩ (by decide)

/-- C4: when the (possibly once-retried) fetch ultimately fails — including
with a second consecutive unauthorized failure — the refresh propagates the
error, sets online to unknown, leaves the last-refresh timestamp and the
registry unchanged, and made at most the one retry (at most two requests). -/
theorem claim4_service_error (now now2 : Int) (a : Auth) (oracle : Nat → FetchOutcome)
    (s : SysState) (e : AqErr) (st : SendStats)
    (hthr : ¬ now - s.lastRefresh < MIN_SECS_TO_REFRESH)
    (hfail : send_devices_request a oracle = (.error e, st)) :
    update now now2 a oracle s = (.error e, { s with online := none }, st) ∧
      st.sends ≤ 2 := by
  have key : isServiceException e = true ∧ st.sends ≤ 2 := by
    unfold send_devices_request at hfail
    cases h0 : oracle 0 <;> rw [h0] at hfail
    case ok b => simp at hfail
    case serviceError =>
      simp at hfail
      obtain ⟨he, hst⟩ := hfail
      subst he
      subst hst
      exact ⟨rfl, by simp⟩
    case unauthorized =>
      cases h1 : oracle 1 <;> rw [h1] at hfail
      case ok b => simp at hfail
      case serviceError =>
        simp at hfail
        obtain ⟨he, hst⟩ := hfail
        subst he
        subst hst
        exact ⟨rfl, by simp⟩
      case unauthorized =>
        simp at hfail
        obtain ⟨he, hst⟩ := hfail
        subst he
        subst hst
        exact ⟨rfl, by simp⟩
  exact ⟨by simp [update, hthr, hfail, key.1], key.2⟩

/-- C4 witness: two consecutive unauthorized responses propagate the error
after exactly two requests and one login, set online to unknown, and leave
the timestamp and registry unchanged. -/
theorem claim4_witness :
    update 100 101 ⟨"t0", "t1"⟩ (fun _ => .unauthorized) ⟨0, some true, regMode⟩ =
      (.error .unauthorized, ⟨0, none, regMode⟩, ⟨2, 1, ["t0", "t1"]⟩) ∧
    (⟨2, 1, ["t0", "t1"]⟩ : SendStats).sends ≤ 2 :=
  claim4_service_error 100 101 ⟨"t0", "t1"⟩ (fun _ => .unauthorized) ⟨0, some true, regMode⟩
    .unauthorized ⟨2, 1, ["t0", "t1"]⟩ (by decide) rfl

/-- C5: when the parse step signals the distinguished system-offline
condition, `update`'s handler sets online to false, propagates the error,
and leaves the last-refresh timestamp and the device registry contents
untouched.  (In `src/`, `_parse_shadow_response` itself never raises this
signal; the claim is settled against the handler of `update`, whose
behaviour on the signal is exactly this.) -/
theorem claim5_system_offline (now2 : Int) (s : SysState) :
    handleParseResult now2 s (.error .systemOffline) =
      (.error .systemOffline, ⟨s.lastRefresh, some false, s.devices⟩) := by
  simp [handleParseResult]

/-- C6: merging a flattened entry whose name already exists in the registry
updates only the `state` field of that device's attribute bag in place: the
registry keys are unchanged (no duplicate entry), the device keeps its class
and every other attribute, and every other registry entry is untouched. -/
theorem claim6_update_in_place (reg : Registry) (k : String) (st : JVal)
    (d : CyclonextDevice)
    (hmem : alistLookup k reg = some d)
    (hname : alistLookup "name" d.data = some (.str k)) :
    (mergeEntry reg k (mkAttrs k st)).map Prod.fst = reg.map Prod.fst ∧
    alistLookup k (mergeEntry reg k (mkAttrs k st)) =
      some ⟨d.cls, alistUpsert "state" st d.data⟩ ∧
    (∀ k', k' ≠ k → alistLookup k' (mergeEntry reg k (mkAttrs k st)) = alistLookup k' reg) ∧
    (∀ a, a ≠ "state" → alistLookup a (alistUpsert "state" st d.data) = alistLookup a d.data) := by
  have hsome : (alistLookup k reg).isSome := by rw [hmem]; rfl
  have hme : mergeEntry reg k (mkAttrs k st) =
      alistAdjust k (updateDeviceData (mkAttrs k st)) reg := by
    simp [mergeEntry, hsome]
  refine ⟨?_, ?_, ?_, ?_⟩
  · rw [hme]; exact alistAdjust_keys _ _ _
  · rw [hme, alistLookup_adjust_self _ _ _ _ hmem, updateDeviceData_mkAttrs _ _ _ hname]
  · intro k' hk
    rw [hme]
    exact alistLookup_adjust_ne _ _ _ _ hk
  · intro a ha
    exact alistLookup_upsert_ne _ _ _ _ ha

/-- C6 witness: re-parsing `mode` with state "waste" over a registry holding
a `mode` device with an extra attribute updates that device's state in
place, keeps the extra attribute and the `cycle` entry, and creates no
duplicate. -/
theorem claim6_witness :
    alistLookup "mode" (mergeEntry regTwo "mode" (mkAttrs "mode" (.str "waste"))) =
      some ⟨.attributeSensor,
        [("name", .str "mode"), ("state", .str "waste"), ("extra", .num 7)]⟩ ∧
    alistLookup "cycle" (mergeEntry regTwo "mode" (mkAttrs "mode" (.str "waste"))) =
      alistLookup "cycle" regTwo ∧
    (mergeEntry regTwo "mode" (mkAttrs "mode" (.str "waste"))).map Prod.fst =
      ["mode", "cycle"] := by
  obtain ⟨h1, h2, h3, h4⟩ :=
    claim6_update_in_place regTwo "mode" (.str "waste") modeDev (by decide) (by decide)
  exact ⟨by rw [h2]; decide, h3 "cycle" (by decide), by rw [h1]; decide⟩

/-- C7: the class of a device created by parse is a pure function of its
name — a name among `production`, `boost`, `low` yields the Prog class and
any other name the AttributeSensor class — and the class of a device already
in the registry never changes across a re-parse. -/
theorem claim7_variant :
    (∀ n st, n ∈ progNames →
      (CyclonextDevice.from_data (mkAttrs n st)).cls = .prog) ∧
    (∀ n st, n ∉ progNames →
      (CyclonextDevice.from_data (mkAttrs n st)).cls = .attributeSensor) ∧
    (∀ body reg reg' k d, parse_shadow_response body reg = .ok reg' →
      alistLookup k reg = some d →
      ∃ d', alistLookup k reg' = some d' ∧ d'.cls = d.cls) := by
  refine ⟨?_, ?_, ?_⟩
  · intro n st hn
    simp [CyclonextDevice.from_data, mkAttrs, alistLookup, hn]
  · intro n st hn
    simp [CyclonextDevice.from_data, mkAttrs, alistLookup, hn]
  · intro body reg reg' k d hp hl
    obtain ⟨entries, flat, _, _, hr⟩ := parse_ok_elim body reg reg' hp
    subst hr
    exact mergeDevices_cls flat reg k d hl

/-- C7 witness: `production` yields the Prog class, `mode` the
AttributeSensor class, and a re-parse of the worked example preserves the
class of the existing `mode` device. -/
theorem claim7_witness :
    (CyclonextDevice.from_data (mkAttrs "production" (.num 1))).cls = .prog ∧
    (CyclonextDevice.from_data (mkAttrs "mode" (.num 1))).cls = .attributeSensor ∧
    ∃ d', alistLookup "mode" regModeParsed = some d' ∧ d'.cls = modeDev.cls := by
  obtain ⟨h1, h2, h3⟩ := claim7_variant
  exact ⟨h1 "production" (.num 1) (by decide), h2 "mode" (.num 1) (by decide),
    h3 (some exampleDoc) regMode regModeParsed "mode" modeDev (by decide) (by decide)⟩

/-- C8: a successful parse never removes a registry entry: every key present
before the parse is still present after it. -/
theorem claim8_keys_superset (body : Option JVal) (reg reg' : Registry) (k : String)
    (hp : parse_shadow_response body reg = .ok reg')
    (h : (alistLookup k reg).isSome) : (alistLookup k reg').isSome := by
  obtain ⟨entries, flat, _, _, hr⟩ := parse_ok_elim body reg reg' hp
  subst hr
  exact mergeDevices_isSome flat reg k h

/-- C8 witness: after parsing the worked example over the registry holding
only `mode`, the key `mode` is still present. -/
theorem claim8_witness : (alistLookup "mode" regModeParsed).isSome :=
  claim8_keys_superset (some exampleDoc) regMode regModeParsed "mode" (by decide) (by decide)

/-- C9 counterexample: the final registry contents are NOT independent of
the order of the robot sequence — two entries that both set `mode` produce
different registries in the two orders, because the later occurrence wins. -/
theorem claim9_counterexample :
    parse_shadow_response (some docModeAB) [] =
      .ok [("mode", ⟨.attributeSensor, mkAttrs "mode" (.str "B")⟩)] ∧
    parse_shadow_response (some docModeBA) [] =
      .ok [("mode", ⟨.attributeSensor, mkAttrs "mode" (.str "A")⟩)] ∧
    parse_shadow_response (some docModeAB) [] ≠ parse_shadow_response (some docModeBA) [] := by
  refine ⟨by decide, by decide, by decide⟩

/-- C9 amended: within one parse the flattened map is determined by the
sequence of recognized (name, state) occurrences with last-write-wins — the
entry stored under each name carries the state of that name's last
recognized occurrence, silently overwriting earlier ones; iteration order
therefore only matters when the same name occurs more than once. -/
theorem claim9_last_write_wins (entries : List JVal) (F : FlatMap) (n : String)
    (h : entries.all entryOk = true)
    (hf : flattenRobot [] entries = .ok F) :
    alistLookup n F = (findLastVal n (specRecognizedPairs entries)).map (mkAttrs n) := by
  rw [flattenRobot_eq entries [] h] at hf
  simp only [Except.ok.injEq] at hf
  subst hf
  rw [alistLookup_buildFlat]
  cases findLastVal n (specRecognizedPairs entries) <;> simp [alistLookup]

/-- C9 witness: with two entries both setting `mode`, the flattened map
stores the later state "B". -/
theorem claim9_witness :
    alistLookup "mode" [("mode", mkAttrs "mode" (.str "B"))] =
      (findLastVal "mode" (specRecognizedPairs dupEntries)).map (mkAttrs "mode") :=
  claim9_last_write_wins dupEntries [("mode", mkAttrs "mode" (.str "B"))] "mode"
    (by decide) (by decide)

/-- C10: a parse failure other than the system-offline signal — an
undecodable body, a missing `state.reported.equipment.robot` path, or a
malformed durations value — is atomic at the refresh interface: the error
propagates and the device registry, the online status and the last-refresh
timestamp are all left exactly as before the call. -/
theorem claim10_parse_failure_atomic (now now2 : Int) (a : Auth)
    (oracle : Nat → FetchOutcome) (s : SysState) (body : Option JVal)
    (st : SendStats) (e : AqErr)
    (hthr : ¬ now - s.lastRefresh < MIN_SECS_TO_REFRESH)
    (hsend : send_devices_request a oracle = (.ok body, st))
    (hp : parse_shadow_response body s.devices = .error e)
    (hne : e ≠ .systemOffline) :
    update now now2 a oracle s = (.error e, s, st) := by
  simp [update, hthr, hsend, handleParseResult, hp, hne]

/-- C10 witness: a body missing the robot path propagates a path error and
leaves the registry, online status and timestamp untouched. -/
theorem claim10_witness :
    update 100 101 ⟨"t0", "t1"⟩ (fun _ => .ok (some (jobj []))) ⟨0, some true, regMode⟩ =
      (.error .pathError, ⟨0, some true, regMode⟩, ⟨1, 0, ["t0"]⟩) :=
  claim10_parse_failure_atomic 100 101 ⟨"t0", "t1"⟩ (fun _ => .ok (some (jobj [])))
    ⟨0, some true, regMode⟩ (some (jobj [])) ⟨1, 0, ["t0"]⟩ .pathError
    (by decide) rfl (by decide) (by decide)

end Cyclonext
